import Mathlib

/-
Shallow embedding of the pipeline-search orchestrator in
deeppavlov/pipeline_manager/pipeline_manager_parallel.py.

Conventions of the embedding:
* Python dicts that the code builds itself (dataset_res, the worker result
  dict, metric maps) are association lists in insertion order; lookup and
  in-place update are the functions alookup and aset below.
* Metric values (floats compared with the > operator only) are rationals.
* Python exceptions (ValueError, KeyError, IndexError, FileNotFoundError,
  ZeroDivisionError, deeppavlov ConfigError) are an explicit error type and
  fallible code returns Except.
* External collaborators that live outside this file of the repository
  (train_evaluate_model_from_config, calc_cv_score, the GPU probe in
  pipeline_manager/utils.py, the Logger) are parameters of the embedded
  functions; where their behaviour matters it is modelled from the spec and
  marked as such.
-/

inductive PMError where
  | valueError (msg : String)
  | configError (msg : String)
  | keyError
  | indexError
  | fileNotFoundError
  | zeroDivisionError
deriving DecidableEq, Repr

instance {ε α : Type} [DecidableEq ε] [DecidableEq α] : DecidableEq (Except ε α) :=
  fun a b =>
    match a, b with
    | Except.error e, Except.error f =>
        if h : e = f then isTrue (by rw [h]) else isFalse (by intro c; injection c; contradiction)
    | Except.error _, Except.ok _ => isFalse (by intro h; cases h)
    | Except.ok _, Except.error _ => isFalse (by intro h; cases h)
    | Except.ok x, Except.ok y =>
        if h : x = y then isTrue (by rw [h]) else isFalse (by intro c; injection c; contradiction)

/-- Association-list lookup, first binding wins (Python dict read d[k]). -/
def alookup {α : Type} : List (String × α) → String → Option α
  | [], _ => none
  | (k, v) :: t, d => if k = d then some v else alookup t d

/-- Association-list write d[k] = v: replaces the first binding of k in place,
appends a new binding at the end otherwise (Python dicts keep insertion
order). -/
def aset {α : Type} : List (String × α) → String → α → List (String × α)
  | [], k, v => [(k, v)]
  | (k', v') :: t, k, v => if k' = k then (k, v) :: t else (k', v') :: aset t k v

theorem alookup_aset {α : Type} (l : List (String × α)) (k : String) (v : α) (d : String) :
    alookup (aset l k v) d = if k = d then some v else alookup l d := by
  induction l with
  | nil => by_cases h : k = d <;> simp [aset, alookup, h]
  | cons e tl ih =>
      obtain ⟨k', v'⟩ := e
      by_cases h1 : k' = k
      · subst h1
        by_cases h2 : k' = d <;> simp [aset, alookup, h2]
      · by_cases h2 : k' = d
        · subst h2
          simp [aset, alookup, h1, Ne.symm h1]
        · simp [aset, alookup, h1, h2, ih]

/-- One entry of the unordered result sequence that run() drains from the
worker pool and hands to update_logger: the fields of the dict returned by
train_pipe that update_logger reads.
dataset = pipe_conf['dataset_reader']['data_path'],
metricsNames = pipe_conf['train']['metrics'],
results = res['results'] (split -> metric -> value),
pipe_time = res['pipe_time']. -/
structure PipeRes where
  dataset : String
  metricsNames : List String
  results : List (String × List (String × ℚ))
  pipe_time : ℚ
deriving DecidableEq, Repr

/-- Aggregator state threaded through update_logger: the target_metric
attribute of PipelineManager and the dataset_res dict
(dataset -> (best_score, best_ind)). -/
structure AggSt where
  tm : Option String
  drs : List (String × (ℚ × Option Nat))
deriving DecidableEq, Repr

/-- Score extraction of update_logger: results['test'][tm] when the 'test'
split is present, otherwise results['valid'][tm]; none models the KeyError
raised when the needed key is absent. -/
def lookupScore (tm : String) (splits : List (String × List (String × ℚ))) : Option ℚ :=
  match alookup splits "test" with
  | some m => alookup m tm
  | none =>
      match alookup splits "valid" with
      | some m => alookup m tm
      | none => none

/-- Target-metric resolution at result i: the stored self.target_metric if it
is set; on the very first result (i = 0) an unset target falls back to
pipe['train']['metrics'][0] (IndexError on an empty metrics list). -/
def resolveTarget (tm : Option String) (i : Nat) (names : List String) : Except PMError String :=
  match tm with
  | some t => Except.ok t
  | none =>
      if i = 0 then
        match names with
        | [] => Except.error PMError.indexError
        | m :: _ => Except.ok m
      else Except.error PMError.keyError

/-- Body of the loop of PipelineManager.update_logger for the i-th element of
res_list (i is the 0-based position in the list handed to update_logger,
i.e. arrival position, because run() feeds it imap_unordered output).
Logging side effects (Logger writes, save_config) touch collaborators outside
the aggregation state and are not part of the state. sb is self.save_best. -/
def updateStep (sb : Bool) (i : Nat) (r : PipeRes) (st : AggSt) : Except PMError AggSt :=
  match resolveTarget st.tm i r.metricsNames with
  | Except.error e => Except.error e
  | Except.ok t =>
      if sb then
        match lookupScore t r.results with
        | none => Except.error PMError.keyError
        | some v =>
            Except.ok ⟨some t, aset st.drs r.dataset
              (if ((alookup st.drs r.dataset).getD (-1, none)).1 < v then (v, some (i + 1))
               else (alookup st.drs r.dataset).getD (-1, none))⟩
      else Except.ok ⟨some t, st.drs⟩

/-- The enumerate loop of update_logger from position i. -/
def update_logger_go (sb : Bool) : Nat → AggSt → List PipeRes → Except PMError AggSt
  | _, st, [] => Except.ok st
  | i, st, r :: rs =>
      match updateStep sb i r st with
      | Except.error e => Except.error e
      | Except.ok st1 => update_logger_go sb (i + 1) st1 rs

/-- PipelineManager.update_logger: folds the result list (in the order the
results arrived from the pool) through updateStep, starting from the
user-supplied target metric and an empty dataset_res, and returns the final
target metric and dataset_res. -/
def update_logger (sb : Bool) (target_metric : Option String) (rs : List PipeRes) :
    Except PMError AggSt :=
  update_logger_go sb 0 ⟨target_metric, []⟩ rs

/-- Best-selection recursion written from the spec wording: walk the ingested
results from position i, keep per-dataset (best_score, best_ind) starting
from the sentinel (-1, none), read the score from the 'test' split if present
else 'valid', replace only on strict improvement, record index i + 1. Used to
state refinement of update_logger. -/
def specGo (t d : String) : Nat → Option (ℚ × Option Nat) → List PipeRes → Option (ℚ × Option Nat)
  | _, cur, [] => cur
  | i, cur, r :: rs =>
      if r.dataset = d then
        specGo t d (i + 1)
          (some (match lookupScore t r.results with
                 | some v =>
                     if (cur.getD (-1, none)).1 < v then (v, some (i + 1)) else cur.getD (-1, none)
                 | none => cur.getD (-1, none))) rs
      else specGo t d (i + 1) cur rs

/- Concrete results for the scenario of claim C1: dataset "A", test-target
scores 0.5, 0.8, 0.3 at submission indices 0, 1, 2. -/

def resSub0 : PipeRes := ⟨"A", ["f1"], [("test", [("f1", 1/2)])], 1⟩

def resSub1 : PipeRes := ⟨"A", ["f1"], [("test", [("f1", 4/5)])], 1⟩

def resSub2 : PipeRes := ⟨"A", ["f1"], [("test", [("f1", 3/10)])], 1⟩

/-- C1, counterexample. In the scenario of the claim (dataset "A",
test-target scores [0.5, 0.8, 0.3] at submission indices [0, 1, 2], results
arriving in completion order [2, 0, 1]) the aggregator records best_ind = 3:
update_logger enumerates the imap_unordered output, so the recorded index is
the 1-based arrival position of the 0.8 result, not the submission index 1
the claim requires (nor 2, its 1-based variant). -/
theorem c1_counterexample :
    update_logger true (some "f1") [resSub2, resSub0, resSub1] =
      Except.ok ⟨some "f1", [("A", (4/5, some 3))]⟩ ∧
    (some 3 : Option Nat) ≠ some 1 ∧ (some 3 : Option Nat) ≠ some 2 := by
  refine ⟨?_, by decide, by decide⟩
  norm_num [update_logger, update_logger_go, updateStep, resolveTarget, lookupScore,
    alookup, aset, resSub0, resSub1, resSub2]

/-- C1, amended. The best job index recorded by the aggregator is the 1-based
arrival (ingestion) position of the winning result, so it depends on the
completion order: the scenario list ingested in completion order [2, 0, 1]
yields best_ind = 3, while the same results ingested in submission order
yield best_ind = 2. -/
theorem c1_amended_arrival_position :
    update_logger true (some "f1") [resSub2, resSub0, resSub1] =
      Except.ok ⟨some "f1", [("A", (4/5, some 3))]⟩ ∧
    update_logger true (some "f1") [resSub0, resSub1, resSub2] =
      Except.ok ⟨some "f1", [("A", (4/5, some 2))]⟩ := by
  constructor <;>
    norm_num [update_logger, update_logger_go, updateStep, resolveTarget, lookupScore,
      alookup, aset, resSub0, resSub1, resSub2]

/-- Single-step monotonicity of the best-tracking in update_logger: a stored
per-dataset entry is either kept exactly or replaced by a strictly larger
score. -/
theorem updateStep_mono (sb : Bool) (i : Nat) (r : PipeRes) (st st' : AggSt)
    (h : updateStep sb i r st = Except.ok st') (d : String) (s : ℚ) (j : Option Nat)
    (hl : alookup st.drs d = some (s, j)) :
    ∃ s' j', alookup st'.drs d = some (s', j') ∧ (s < s' ∨ (s = s' ∧ j = j')) := by
  unfold updateStep at h
  split at h
  · simp at h
  · split at h
    · split at h
      · simp at h
      · rename_i v hls
        injection h with h
        subst h
        simp only [alookup_aset]
        by_cases hd : r.dataset = d
        · subst hd
          rw [if_pos rfl, hl]
          simp only [Option.getD_some]
          by_cases hlt : (s, j).1 < v
          · exact ⟨v, some (i + 1), by simp [hlt], Or.inl hlt⟩
          · exact ⟨s, j, by simp [hlt], Or.inr ⟨rfl, rfl⟩⟩
        · rw [if_neg hd]
          exact ⟨s, j, hl, Or.inr ⟨rfl, rfl⟩⟩
    · injection h with h
      subst h
      exact ⟨s, j, hl, Or.inr ⟨rfl, rfl⟩⟩

/-- C6: for every dataset, the tracked best score is non-decreasing across
ingestion order, and the stored (best_score, best_ind) pair is replaced only
by a strictly greater score: across any successful run of the update_logger
loop, an entry either strictly improves or is kept unchanged, so a tie keeps
the earlier-recorded best index. -/
theorem c6_best_monotone (sb : Bool) (rs : List PipeRes) :
    ∀ (i : Nat) (st st' : AggSt),
      update_logger_go sb i st rs = Except.ok st' →
      ∀ (d : String) (s : ℚ) (j : Option Nat), alookup st.drs d = some (s, j) →
      ∃ s' j', alookup st'.drs d = some (s', j') ∧ (s < s' ∨ (s = s' ∧ j = j')) := by
  induction rs with
  | nil =>
      intro i st st' h d s j hl
      simp only [update_logger_go] at h
      injection h with h
      subst h
      exact ⟨s, j, hl, Or.inr ⟨rfl, rfl⟩⟩
  | cons r rs ih =>
      intro i st st' h d s j hl
      simp only [update_logger_go] at h
      cases hstep : updateStep sb i r st with
      | error e => rw [hstep] at h; cases h
      | ok st1 =>
          rw [hstep] at h
          obtain ⟨s1, j1, hl1, hrel1⟩ := updateStep_mono sb i r st st1 hstep d s j hl
          obtain ⟨s2, j2, hl2, hrel2⟩ := ih (i + 1) st1 st' h d s1 j1 hl1
          refine ⟨s2, j2, hl2, ?_⟩
          rcases hrel1 with h1 | ⟨h1e, h1j⟩
          · rcases hrel2 with h2 | ⟨h2e, h2j⟩
            · exact Or.inl (h1.trans h2)
            · exact Or.inl (h2e ▸ h1)
          · subst h1e
            subst h1j
            exact hrel2

def resW6 : PipeRes := ⟨"B", ["f1"], [("test", [("f1", 1/2)])], 1⟩

def stW6 : AggSt := ⟨some "f1", [("B", (1/2, some 1))]⟩

/-- C6, witness: ingesting a result for dataset "B" whose score 0.5 ties the
stored best 0.5 keeps the earlier entry (best_ind 1) unchanged. -/
theorem c6_witness :
    ∃ s' j', alookup stW6.drs "B" = some (s', j') ∧
      ((1:ℚ)/2 < s' ∨ ((1:ℚ)/2 = s' ∧ (some 1 : Option Nat) = j')) :=
  c6_best_monotone true [resW6] 0 stW6 stW6
    (by norm_num [update_logger_go, updateStep, resolveTarget, lookupScore, alookup, aset,
      resW6, stW6])
    "B" (1/2) (some 1) (by simp [stW6, alookup])

/-- Refinement of the update_logger loop against the spec-worded recursion
specGo: once the target metric is fixed, the loop never changes it, and every
per-dataset entry of dataset_res evolves exactly as specGo prescribes. -/
theorem go_spec (t : String) (rs : List PipeRes) :
    ∀ (i : Nat) (st st' : AggSt),
      st.tm = some t →
      update_logger_go true i st rs = Except.ok st' →
      st'.tm = some t ∧ ∀ d, alookup st'.drs d = specGo t d i (alookup st.drs d) rs := by
  induction rs with
  | nil =>
      intro i st st' htm h
      simp only [update_logger_go] at h
      injection h with h
      subst h
      exact ⟨htm, fun d => by simp [specGo]⟩
  | cons r rs ih =>
      intro i st st' htm h
      simp only [update_logger_go] at h
      cases hstep : updateStep true i r st with
      | error e => rw [hstep] at h; cases h
      | ok st1 =>
          rw [hstep] at h
          unfold updateStep at hstep
          rw [htm] at hstep
          simp only [resolveTarget, if_pos] at hstep
          cases hls : lookupScore t r.results with
          | none => rw [hls] at hstep; simp at hstep
          | some v =>
              rw [hls] at hstep
              simp only [Except.ok.injEq] at hstep
              obtain ⟨h1, h2⟩ := ih (i + 1) st1 st' (by rw [← hstep]) h
              refine ⟨h1, fun d => ?_⟩
              rw [h2 d, ← hstep]
              simp only
              rw [alookup_aset]
              by_cases hd : r.dataset = d
              · rw [if_pos hd]
                simp only [specGo, if_pos hd, hls]
                rw [hd]
              · rw [if_neg hd]
                simp only [specGo, if_neg hd]

/-- C7: on the first ingested result the target metric name is fixed for the
whole run, to the user-supplied name if one was given and otherwise to the
first metric name declared in that result's training configuration; and for
every result the per-dataset best score is read from the 'test' split when
present, else from the 'valid' split (the latter is the content of specGo,
against which the final dataset_res is proved equal). -/
theorem c7_target_metric_fixed (target0 : Option String) (r0 : PipeRes)
    (rest : List PipeRes) (st' : AggSt)
    (h : update_logger true target0 (r0 :: rest) = Except.ok st') :
    (∀ t, target0 = some t → st'.tm = some t) ∧
    (target0 = none → ∃ m ms, r0.metricsNames = m :: ms ∧ st'.tm = some m) ∧
    (∀ t d, st'.tm = some t → alookup st'.drs d = specGo t d 0 none (r0 :: rest)) := by
  cases target0 with
  | some t =>
      have hg := go_spec t (r0 :: rest) 0 ⟨some t, []⟩ st' rfl h
      refine ⟨fun t' ht' => by injection ht' with ht'; subst ht'; exact hg.1, by simp, ?_⟩
      intro t' d ht'
      rw [hg.1] at ht'
      injection ht' with ht'
      subst ht'
      simpa [alookup] using hg.2 d
  | none =>
      unfold update_logger at h
      simp only [update_logger_go] at h
      cases hstep : updateStep true 0 r0 ⟨none, []⟩ with
      | error e => rw [hstep] at h; cases h
      | ok st1 =>
          rw [hstep] at h
          unfold updateStep at hstep
          cases hmn : r0.metricsNames with
          | nil => rw [hmn] at hstep; simp [resolveTarget] at hstep
          | cons m ms =>
              rw [hmn] at hstep
              simp only [resolveTarget, if_pos] at hstep
              cases hls : lookupScore m r0.results with
              | none => rw [hls] at hstep; simp at hstep
              | some v =>
                  rw [hls] at hstep
                  simp only [Except.ok.injEq] at hstep
                  have hg := go_spec m rest 1 st1 st' (by rw [← hstep]) h
                  refine ⟨?_, ?_, ?_⟩
                  · intro t ht
                    cases ht
                  · exact fun _ => ⟨m, ms, rfl, hg.1⟩
                  intro t d ht
                  rw [hg.1] at ht
                  injection ht with ht
                  subst ht
                  rw [hg.2 d, ← hstep]
                  simp only [specGo, hls]
                  by_cases hd : r0.dataset = d
                  · rw [if_pos hd]
                    simp only [alookup, aset, if_pos hd]
                  · rw [if_neg hd]
                    simp only [alookup, aset, if_neg hd]

def resW7 : PipeRes := ⟨"C", ["acc", "f1"], [("valid", [("acc", 7/10)])], 1⟩

/-- C7, witness: a run with no user-supplied target metric and one result for
dataset "C" whose training config declares metrics ["acc", "f1"] and whose
results carry only a 'valid' split fixes the target to "acc" and scores from
the valid split, as specGo prescribes. -/
theorem c7_witness :
    (∀ t, (none : Option String) = some t → AggSt.tm ⟨some "acc", [("C", (7/10, some 1))]⟩ = some t) ∧
    ((none : Option String) = none → ∃ m ms, resW7.metricsNames = m :: ms ∧
      AggSt.tm ⟨some "acc", [("C", (7/10, some 1))]⟩ = some m) ∧
    (∀ t d, AggSt.tm ⟨some "acc", [("C", (7/10, some 1))]⟩ = some t →
      alookup (AggSt.drs ⟨some "acc", [("C", (7/10, some 1))]⟩) d = specGo t d 0 none [resW7]) :=
  c7_target_metric_fixed none resW7 [] ⟨some "acc", [("C", (7/10, some 1))]⟩
    (by norm_num [update_logger, update_logger_go, updateStep, resolveTarget, lookupScore,
      alookup, aset, resW7, show ("valid" : String) ≠ "test" by decide])

/-- Python str() of the value stored in dataset_res best_ind, as used by
format() in the retention loop: an int prints as its digits, None prints as
the string None. -/
def fmtInd : Option Nat → String
  | none => "None"
  | some k => toString k

/-- Name of the checkpoint entry the retention loop moves: the literal
format string pipe_{} applied to best_ind. -/
def best_pipe_dirname (best_ind : Option Nat) : String := "pipe_" ++ fmtInd best_ind

/-- Python str.startswith over the character lists of the two strings. -/
def pyStartsWith (s p : String) : Bool := p.data.isPrefixOf s.data

/-- os.path.isfile(join(dir, n)) over a directory listing (name, isDir). -/
def isfileIn (l : List (String × Bool)) (n : String) : Bool :=
  l.any (fun e => e.1 == n && !e.2)

/-- os.path.isdir(join(dir, n)) over a directory listing (name, isDir). -/
def isdirIn (l : List (String × Bool)) (n : String) : Bool :=
  l.any (fun e => e.1 == n && e.2)

/-- The for f in files loop of the retention block in PipelineManager.run:
walks the snapshot listing of the dataset working directory and moves entries
into the dest listing. A file not starting with pipe moves unless a file of
that name is already at dest; the entry named pipe_{best_ind} moves, after
rmtree of a same-named directory already at dest. Every other entry stays
behind (and is deleted with the source directory afterwards). -/
def moveLoop (bestName : String) : List (String × Bool) → List (String × Bool) → List (String × Bool)
  | dest, [] => dest
  | dest, (f, d) :: rest =>
      if !pyStartsWith f "pipe" && !isfileIn dest f then
        moveLoop bestName (dest ++ [(f, d)]) rest
      else if f == bestName then
        if isdirIn dest f then
          moveLoop bestName ((dest.filter (fun e => e.1 ≠ f)) ++ [(f, d)]) rest
        else
          moveLoop bestName (dest ++ [(f, d)]) rest
      else
        moveLoop bestName dest rest

/-- Outcome of the per-dataset retention block: the exception it raised if
any, the final state of the dataset working directory, the name of the best
directory it targets, and that directory's final listing. -/
structure RetainOut where
  err : Option PMError
  source : Option (List (String × Bool))
  dest_name : String
  dest : Option (List (String × Bool))
deriving DecidableEq, Repr

/-- Per-dataset retention block of PipelineManager.run (the save_best loop
body): dest1 = join(save_path, name + '_best_pipe') is created when absent;
os.listdir(source) raises FileNotFoundError when the working directory is
gone; otherwise the move loop runs over its snapshot and the working
directory is then deleted with rmtree. source/dest0 are the listings of the
dataset working directory and of dest1 (none = directory absent). -/
def retain_one (name : String) (best_ind : Option Nat)
    (source : Option (List (String × Bool))) (dest0 : Option (List (String × Bool))) :
    RetainOut :=
  let dest_name := name ++ "_best_pipe"
  let dest1 := match dest0 with
    | none => []
    | some l => l
  match source with
  | none => ⟨some PMError.fileNotFoundError, none, dest_name, some dest1⟩
  | some files => ⟨none, none, dest_name, some (moveLoop (best_pipe_dirname best_ind) dest1 files)⟩

/-- C9: invoking the retention block again on a dataset that is already
finalized (working directory removed, best directory present with contents
d0) fails cleanly with FileNotFoundError from os.listdir and leaves the best
directory exactly as it was: the only effect before the raise is the skipped
makedirs (dest already exists), so nothing is corrupted, duplicated or
modified. -/
theorem c9_second_retention_fails_cleanly (name : String) (best_ind : Option Nat)
    (d0 : List (String × Bool)) :
    retain_one name best_ind none (some d0) =
      ⟨some PMError.fileNotFoundError, none, name ++ "_best_pipe", some d0⟩ := rfl

/-- C5, counterexample. Retention for dataset "A" with best index 2 over a
working directory holding a shared file vocab.txt and checkpoints pipe_1,
pipe_2 creates the directory named A_best_pipe.  The claim says the retained
directory is named <dataset>_best, i.e. A_best, which is a different name. -/
theorem c5_counterexample :
    (retain_one "A" (some 2)
        (some [("vocab.txt", false), ("pipe_1", true), ("pipe_2", true)]) none).dest_name =
      "A_best_pipe" ∧
    "A_best_pipe" ≠ "A_best" ∧
    (retain_one "A" (some 2)
        (some [("vocab.txt", false), ("pipe_1", true), ("pipe_2", true)]) none).dest =
      some [("vocab.txt", false), ("pipe_2", true)] := by
  refine ⟨by decide, by decide, by decide⟩

theorem isfileIn_eq_false {l : List (String × Bool)} {n : String}
    (h : ∀ e ∈ l, e.1 ≠ n) : isfileIn l n = false := by
  simp only [isfileIn, List.any_eq_false]
  intro e he
  simp [h e he]

theorem isdirIn_eq_false {l : List (String × Bool)} {n : String}
    (h : ∀ e ∈ l, e.1 ≠ n) : isdirIn l n = false := by
  simp only [isdirIn, List.any_eq_false]
  intro e he
  simp [h e he]

/-- The retention move loop over a snapshot with pairwise-distinct names none
of which is already at dest is a filter: it moves exactly the entries that do
not start with pipe plus the entry named pipe_{best_ind}, in listing order. -/
theorem moveLoop_fresh (bestName : String) :
    ∀ (files dest : List (String × Bool)),
      (∀ e ∈ dest, ∀ g ∈ files, e.1 ≠ g.1) →
      (files.map Prod.fst).Nodup →
      moveLoop bestName dest files =
        dest ++ files.filter (fun fd => !pyStartsWith fd.1 "pipe" || fd.1 == bestName) := by
  intro files
  induction files with
  | nil => intro dest _ _; simp [moveLoop]
  | cons fd rest ih =>
      intro dest hdisj hnd
      obtain ⟨f, d⟩ := fd
      have hnd2 : (f :: rest.map Prod.fst).Nodup := by simpa only [List.map_cons] using hnd
      have hnd' : (rest.map Prod.fst).Nodup := hnd2.of_cons
      have hnotin : ∀ e ∈ dest, e.1 ≠ f :=
        fun e he => hdisj e he (f, d) (List.mem_cons_self _ _)
      have hff : isfileIn dest f = false := isfileIn_eq_false hnotin
      have hfd : isdirIn dest f = false := isdirIn_eq_false hnotin
      have hhead : ∀ g ∈ rest, f ≠ g.1 := by
        intro g hg heq
        exact (List.nodup_cons.mp hnd2).1 (heq ▸ List.mem_map_of_mem Prod.fst hg)
      have hdisj' : ∀ e ∈ dest ++ [(f, d)], ∀ g ∈ rest, e.1 ≠ g.1 := by
        intro e he g hg
        rcases List.mem_append.mp he with he | he
        · exact hdisj e he g (List.mem_cons_of_mem _ hg)
        · rw [List.mem_singleton.mp he]
          exact hhead g hg
      have hdisjr : ∀ e ∈ dest, ∀ g ∈ rest, e.1 ≠ g.1 :=
        fun e he g hg => hdisj e he g (List.mem_cons_of_mem _ hg)
      cases hsw : pyStartsWith f "pipe" with
      | false =>
          rw [show moveLoop bestName dest ((f, d) :: rest)
              = moveLoop bestName (dest ++ [(f, d)]) rest by simp [moveLoop, hsw, hff]]
          rw [ih (dest ++ [(f, d)]) hdisj' hnd']
          simp [hsw, List.append_assoc]
      | true =>
          by_cases hb : f = bestName
          · subst hb
            rw [show moveLoop f dest ((f, d) :: rest)
                = moveLoop f (dest ++ [(f, d)]) rest by simp [moveLoop, hsw, hfd]]
            rw [ih (dest ++ [(f, d)]) hdisj' hnd']
            simp [hsw, List.append_assoc]
          · rw [show moveLoop bestName dest ((f, d) :: rest)
                = moveLoop bestName dest rest by simp [moveLoop, hsw, hb]]
            rw [ih dest hdisjr hnd']
            simp [hsw, hb]

/-- C5, amended (the counterexample forces only the directory name): after a
first retention run for a dataset whose best index is k, the directory named
<dataset>_best_pipe holds every entry of the working directory that does not
start with pipe (the shared assets) plus exactly the checkpoint entry named
pipe_k, in listing order, and the dataset working directory has been
deleted; no error is raised. -/
theorem c5_retention_best_pipe (name : String) (k : Nat) (files : List (String × Bool))
    (hnd : (files.map Prod.fst).Nodup) :
    retain_one name (some k) (some files) none =
      ⟨none, none, name ++ "_best_pipe",
       some (files.filter
         (fun fd => !pyStartsWith fd.1 "pipe" || fd.1 == best_pipe_dirname (some k)))⟩ := by
  simp only [retain_one]
  rw [moveLoop_fresh (best_pipe_dirname (some k)) files [] (by simp) hnd]
  simp

/-- C5, witness: a concrete first retention run for dataset "B" with best
index 1 over listing [emb.txt, pipe_1, pipe_3] yields B_best_pipe holding
emb.txt and pipe_1 only, with the working directory deleted. -/
theorem c5_witness :
    retain_one "B" (some 1) (some [("emb.txt", false), ("pipe_1", true), ("pipe_3", true)]) none =
      ⟨none, none, "B_best_pipe", some [("emb.txt", false), ("pipe_1", true)]⟩ := by
  have h := c5_retention_best_pipe "B" 1
    [("emb.txt", false), ("pipe_1", true), ("pipe_3", true)] (by decide)
  rw [h]
  decide

theorem specGo_stays_sentinel (t d : String) :
    ∀ (rs : List PipeRes) (i : Nat),
      (∀ r, r ∈ rs → r.dataset = d → ∀ v, lookupScore t r.results = some v → v ≤ -1) →
      specGo t d i (some (-1, none)) rs = some (-1, none) := by
  intro rs
  induction rs with
  | nil => intro i _; simp [specGo]
  | cons r rest ih =>
      intro i hlow
      have hlow' : ∀ r', r' ∈ rest → r'.dataset = d → ∀ v,
          lookupScore t r'.results = some v → v ≤ -1 :=
        fun r' hr' => hlow r' (List.mem_cons_of_mem _ hr')
      by_cases hd : r.dataset = d
      · simp only [specGo, if_pos hd]
        cases hls : lookupScore t r.results with
        | none => simpa using ih (i + 1) hlow'
        | some v =>
            have hv : v ≤ -1 := hlow r (List.mem_cons_self _ _) hd v hls
            have hnlt : ¬ ((-1 : ℚ) < v) := not_lt.mpr hv
            simp only [Option.getD_some]
            rw [if_neg hnlt]
            exact ih (i + 1) hlow'
      · simp only [specGo, if_neg hd]
        exact ih (i + 1) hlow'

theorem specGo_from_none_sentinel (t d : String) :
    ∀ (rs : List PipeRes) (i : Nat),
      (∀ r, r ∈ rs → r.dataset = d → ∀ v, lookupScore t r.results = some v → v ≤ -1) →
      (∃ r, r ∈ rs ∧ r.dataset = d) →
      specGo t d i none rs = some (-1, none) := by
  intro rs
  induction rs with
  | nil => intro i _ hex; obtain ⟨r, hr, _⟩ := hex; cases hr
  | cons r rest ih =>
      intro i hlow hex
      have hlow' : ∀ r', r' ∈ rest → r'.dataset = d → ∀ v,
          lookupScore t r'.results = some v → v ≤ -1 :=
        fun r' hr' => hlow r' (List.mem_cons_of_mem _ hr')
      by_cases hd : r.dataset = d
      · simp only [specGo, if_pos hd]
        cases hls : lookupScore t r.results with
        | none =>
            simpa using specGo_stays_sentinel t d rest (i + 1) hlow'
        | some v =>
            have hv : v ≤ -1 := hlow r (List.mem_cons_self _ _) hd v hls
            have hnlt : ¬ ((-1 : ℚ) < v) := not_lt.mpr hv
            simp only [Option.getD_none]
            rw [if_neg hnlt]
            exact specGo_stays_sentinel t d rest (i + 1) hlow'
      · simp only [specGo, if_neg hd]
        refine ih (i + 1) hlow' ?_
        obtain ⟨r', hr', hd'⟩ := hex
        rcases List.mem_cons.mp hr' with h | h
        · exact absurd (h ▸ hd') hd
        · exact ⟨r', h, hd'⟩

/-- C10: the per-dataset best tracking starts from the sentinel
best_score = -1 with best_ind = None and updates only on strictly greater
scores, so a dataset all of whose ingested target-metric scores are at most
-1 ends the run with best_score = -1 and best_ind = None even though results
for it were ingested; the retention loop then searches the working directory
for an entry with the literal name pipe_None. -/
theorem c10_sentinel_best_none (t : String) (rs : List PipeRes) (st' : AggSt) (d : String)
    (h : update_logger true (some t) rs = Except.ok st')
    (hex : ∃ r, r ∈ rs ∧ r.dataset = d)
    (hlow : ∀ r, r ∈ rs → r.dataset = d → ∀ v, lookupScore t r.results = some v → v ≤ -1) :
    alookup st'.drs d = some (-1, none) ∧ best_pipe_dirname none = "pipe_None" := by
  have hg := go_spec t rs 0 ⟨some t, []⟩ st' rfl h
  refine ⟨?_, by decide⟩
  have := hg.2 d
  simp only [alookup] at this
  rw [this]
  exact specGo_from_none_sentinel t d rs 0 hlow hex

def resLow : PipeRes := ⟨"D", ["f1"], [("test", [("f1", -2)])], 1⟩

/-- C10, witness: one ingested result for dataset "D" with test-target score
-2 leaves the sentinel in place: best_score -1, best_ind None, and the
retention target name evaluates to pipe_None. -/
theorem c10_witness :
    alookup (AggSt.drs ⟨some "f1", [("D", ((-1 : ℚ), (none : Option Nat)))]⟩) "D" =
      some (-1, none) ∧ best_pipe_dirname none = "pipe_None" :=
  c10_sentinel_best_none "f1" [resLow] ⟨some "f1", [("D", (-1, none))]⟩ "D"
    (by norm_num [update_logger, update_logger_go, updateStep, resolveTarget, lookupScore,
      alookup, aset, resLow])
    ⟨resLow, List.mem_singleton.mpr rfl, rfl⟩
    (by
      intro r hr hd v hv
      rw [List.mem_singleton.mp hr] at hv
      norm_num [lookupScore, alookup, resLow] at hv
      rw [← hv]
      norm_num)

/-- Value stored under one key of the dict a worker returns from train_pipe:
the config copy, the metrics mapping, or the elapsed wall-clock time. -/
inductive ResVal (α : Type) where
  | conf (c : α)
  | metrics (m : List (String × List (String × ℚ)))
  | time (t : ℚ)
deriving DecidableEq, Repr

/-- PipelineManager.train_pipe, the worker body. First it sets the process
device visibility: CUDA_VISIBLE_DEVICES is set to str(gpu_ind) when gpu is
true (ConfigError when gpu_ind is not an int, modelled as none), to the empty
string otherwise; the returned String is that setting. Then it runs either
cross-validation (calc_cv_score, wrapped as the single split test) or a full
train-and-evaluate cycle (train_evaluate_model_from_config); both are
external collaborators, passed as the functions cross_val_score and evaluate,
and the wall-clock measurement is the parameter elapsed. The returned dict
has exactly the keys pipe_conf (a deep copy of the config, which is plain
value passing here), results and pipe_time, assembled in that order. -/
def train_pipe {α : Type} (evaluate : α → List (String × List (String × ℚ)))
    (cross_val_score : α → Nat → List (String × ℚ))
    (pipe_config : α) (cross_validation : Bool) (k_fold : Nat)
    (gpu : Bool) (gpu_ind : Option Nat) (elapsed : ℚ) :
    Except PMError (String × List (String × ResVal α)) :=
  match (if gpu then
           match gpu_ind with
           | some k => Except.ok (toString k)
           | none => Except.error (PMError.configError "Check your multiprocess config")
         else Except.ok "") with
  | Except.error e => Except.error e
  | Except.ok env =>
      Except.ok (env,
        [("pipe_conf", ResVal.conf pipe_config),
         ("results", ResVal.metrics
           (if cross_validation then [("test", cross_val_score pipe_config k_fold)]
            else evaluate pipe_config)),
         ("pipe_time", ResVal.time elapsed)])

/-- C2, counterexample. A concrete worker run (no GPU, no cross-validation)
returns a dict whose keys are exactly pipe_conf, results and pipe_time: no
job_index is produced, so a JobResult does not carry the job's stable
submission index. -/
theorem c2_counterexample :
    train_pipe (fun _ : Unit => [("test", [("f1", 1)])]) (fun _ _ => []) () false 5 false none 1 =
      Except.ok ("",
        [("pipe_conf", ResVal.conf ()),
         ("results", ResVal.metrics [("test", [("f1", 1)])]),
         ("pipe_time", ResVal.time 1)]) ∧
    "job_index" ∉ ["pipe_conf", "results", "pipe_time"] := by
  refine ⟨by decide, by decide⟩

/-- C2, amended. Every result dict a worker returns carries exactly the keys
pipe_conf (the config copy), results (the metrics mapping) and pipe_time
(the elapsed wall-clock time), in that order, and in particular carries no
job_index: job identity is not present in the result and is recoverable only
from arrival position. -/
theorem c2_result_fields {α : Type} (evaluate : α → List (String × List (String × ℚ)))
    (cross_val_score : α → Nat → List (String × ℚ)) (pipe_config : α)
    (cross_validation : Bool) (k_fold : Nat) (gpu : Bool) (gpu_ind : Option Nat)
    (elapsed : ℚ) (env : String) (d : List (String × ResVal α))
    (h : train_pipe evaluate cross_val_score pipe_config cross_validation k_fold
      gpu gpu_ind elapsed = Except.ok (env, d)) :
    d.map Prod.fst = ["pipe_conf", "results", "pipe_time"] ∧
    "job_index" ∉ d.map Prod.fst := by
  unfold train_pipe at h
  split at h
  · cases h
  · injection h with h
    injection h with h1 h2
    rw [← h2]
    refine ⟨rfl, ?_⟩
    simp only [List.map_cons, List.map_nil]
    decide

/-- C2, witness: the amended statement evaluated on a concrete GPU-pinned
cross-validation job. -/
theorem c2_witness :
    ([("pipe_conf", ResVal.conf ()), ("results", ResVal.metrics [("test", [("f1", (2:ℚ)/5)])]),
      ("pipe_time", ResVal.time 3)].map Prod.fst
        = ["pipe_conf", "results", "pipe_time"]) ∧
    "job_index" ∉ ([("pipe_conf", ResVal.conf ()),
      ("results", ResVal.metrics [("test", [("f1", (2:ℚ)/5)])]),
      ("pipe_time", ResVal.time 3)].map Prod.fst) :=
  c2_result_fields (fun _ : Unit => []) (fun _ _ => [("f1", (2:ℚ)/5)]) () true 5 true (some 0) 3
    "0" _ (by rfl)

/-- PipelineManager.gpu_gen: pairs every generated config (in submission
order i) with the worker arguments (deepcopy(pipe_conf), cross_validation,
k_fold, True, j) where j = i - (i // len(available_gpu)) * len(available_gpu),
i.e. i mod len(available_gpu); an empty available_gpu list makes the Python
expression raise ZeroDivisionError. -/
def gpu_gen {α : Type} (available_gpu : List Nat) (cross_validation : Bool) (k_fold : Nat)
    (configs : List α) : Except PMError (List (α × Bool × Nat × Bool × Nat)) :=
  if available_gpu.length = 0 then Except.error PMError.zeroDivisionError
  else
    Except.ok (configs.enum.map (fun p =>
      (p.2, cross_validation, k_fold, true,
       p.1 - (p.1 / available_gpu.length) * available_gpu.length)))

/-- C3: evaluation at the failing input. With idle GPUs [2, 3] as the slot
list, the job at submission index 0 is handed gpu_ind = 0 (the position
0 mod 2, not the slot value), and the worker therefore sets
CUDA_VISIBLE_DEVICES to the string 0 even though gpu_slots[0 mod 2] is GPU 2:
the device-visibility constraint names the position, not the assigned slot
index. -/
theorem c3_gpu_position_not_slot :
    gpu_gen [2, 3] false 5 [()] = Except.ok [((), false, 5, true, 0)] ∧
    (train_pipe (fun _ : Unit => [("test", [("f1", 1)])]) (fun _ _ => []) () false 5 true
        (some 0) 1).map Prod.fst = Except.ok "0" ∧
    [2, 3][0]? = some 2 ∧
    "0" ≠ "2" := by
  refine ⟨by decide, by decide, by decide, by decide⟩

/-- Python truthiness of the use_multi_gpus argument (None or a list): None
and the empty list are falsy. -/
def pyTruthyList : Option (List Nat) → Bool
  | none => false
  | some [] => false
  | some (_ :: _) => true

/-- Python truthiness of the max_num_workers argument (None or an int): None
and 0 are falsy. -/
def pyTruthyNat : Option Nat → Bool
  | none => false
  | some 0 => false
  | some (_ + 1) => true

/-- Round-to-nearest-even of N / 2^s (the dropped low s bits of N), the
rounding IEEE-754 applies to a product whose exact mantissa is too wide. -/
def rneShift (N s : Nat) : Nat :=
  if s = 0 then N
  else
    let q := N / 2 ^ s
    let r := N % 2 ^ s
    let h := 2 ^ (s - 1)
    if r < h then q else if h < r then q + 1 else if q % 2 = 0 then q else q + 1

/-- int(cpu_count() * 0.7) under IEEE-754 double semantics: 0.7 is the double
3152519739159347 / 2^52, the product with cpu is rounded to 53 significant
bits (nearest, ties to even) and int() then truncates toward zero. -/
def pyInt07 (cpu : Nat) : Nat :=
  if cpu = 0 then 0
  else
    let N := cpu * 3152519739159347
    let L := Nat.log2 N
    if L ≤ 52 then N / 2 ^ 52
    else rneShift N (L - 52) * 2 ^ (L - 52) / 2 ^ 52

/-- Modelled from the spec: get_available_gpus in
pipeline_manager/utils.py (not under src) queries the idle GPU indices
(GpuProbe.idle_indices); called with num_gpus it returns at most that many of
them. The idle indices are the parameter idle, in query order. -/
def get_available_gpus (idle : List Nat) (num_gpus : Option Nat) : List Nat :=
  match num_gpus with
  | none => idle
  | some k => idle.take k

/-- The resource plan PipelineManager.prepare_multiprocess leaves in the
attributes: max_num_workers (the pool size handed to Pool(); None makes the
pool default to os.cpu_count) and available_gpu (None = CPU-only mode). -/
structure MPResult where
  max_num_workers : Option Nat
  available_gpu : Option (List Nat)
deriving DecidableEq, Repr

/-- PipelineManager.prepare_multiprocess. Inputs mirror the attributes and
probes it reads: mnw0 = the max_num_workers constructor argument, use_all_gpus
and use_multi_gpus the two GPU-mode flags, cpu_num = psutil.cpu_count(),
gpu_num = get_num_gpu() (total GPUs), idle = the idle GPU indices the probe
would report, is_idle = check_gpu_available. The requested worker count is
first clamped to cpu_num (with a printed warning); requesting both GPU modes
raises ValueError; in all-GPU mode with a requested worker count not above
gpu_num the code assigns available_gpu but never assigns max_num_workers,
which therefore stays None. -/
def prepare_multiprocess (mnw0 : Option Nat) (use_all_gpus : Bool)
    (use_multi_gpus : Option (List Nat)) (cpu_num gpu_num : Nat)
    (idle : List Nat) (is_idle : Nat → Bool) : Except PMError MPResult :=
  let mnw_ : Option Nat := match mnw0 with
    | some k => if k > cpu_num then some cpu_num else some k
    | none => none
  if use_all_gpus then
    if pyTruthyList use_multi_gpus then
      Except.error (PMError.valueError
        "Parameters use_all_gpus and use_multi_gpus can not simultaneously be not None.")
    else
      match mnw_ with
      | none =>
          if pyInt07 cpu_num > (get_available_gpus idle none).length then
            Except.ok ⟨some (get_available_gpus idle none).length, some (get_available_gpus idle none)⟩
          else
            Except.ok ⟨some (pyInt07 cpu_num), some (get_available_gpus idle none)⟩
      | some k =>
          if k > gpu_num then
            Except.ok ⟨some gpu_num, some (get_available_gpus idle none)⟩
          else
            Except.ok ⟨none, some (get_available_gpus idle (some k))⟩
  else if pyTruthyList use_multi_gpus then
    let available := (use_multi_gpus.getD []).filter is_idle
    if !pyTruthyNat mnw_ then
      Except.ok ⟨some available.length, some available⟩
    else if mnw_.getD 0 > available.length then
      Except.ok ⟨some available.length, some available⟩
    else
      Except.ok ⟨mnw_, some (available.take (mnw_.getD 0))⟩
  else
    Except.ok ⟨mnw_, none⟩

/-- C8: requesting both GPU modes at once (use_all_gpus together with a
non-empty use_multi_gpus list) makes prepare_multiprocess raise ValueError
for every input, before any resource plan exists; prepare_multiprocess runs
from the constructor, before run() can schedule anything, so no job is ever
scheduled. -/
theorem c8_conflicting_gpu_modes (mnw0 : Option Nat) (g : Nat) (gs : List Nat)
    (cpu_num gpu_num : Nat) (idle : List Nat) (is_idle : Nat → Bool) :
    prepare_multiprocess mnw0 true (some (g :: gs)) cpu_num gpu_num idle is_idle =
      Except.error (PMError.valueError
        "Parameters use_all_gpus and use_multi_gpus can not simultaneously be not None.") := rfl

/-- C4: evaluation at the failing inputs. In all-GPU mode with a requested
worker count of 2, 8 CPUs, 4 GPUs all idle, the claim requires
worker_count = min(2, 4) = 2, but the code branch never assigns
max_num_workers: the plan keeps None (so Pool(None) later defaults to
os.cpu_count) while gpu_slots becomes [0, 1]. With a requested count of 6, 4
total GPUs but only GPU 0 idle, the claim requires min(6, 1) = 1 but the code
clamps to the total gpu_num = 4 while gpu_slots is the single idle index, so
len(gpu_slots) = 1 differs from worker_count = 4. -/
theorem c4_all_gpus_worker_count :
    prepare_multiprocess (some 2) true none 8 4 [0, 1, 2, 3] (fun _ => true) =
      Except.ok ⟨none, some [0, 1]⟩ ∧
    prepare_multiprocess (some 6) true none 8 4 [0] (fun _ => true) =
      Except.ok ⟨some 4, some [0]⟩ ∧
    (none : Option Nat) ≠ some 2 ∧
    (some 4 : Option Nat) ≠ some 1 ∧
    ([0] : List Nat).length ≠ 4 := by
  refine ⟨by decide, by decide, by decide, by decide, by decide⟩
